import Mathlib

/-!
Verification of the one-compartment oral-absorption pharmacokinetic
simulator (`app.py`): parameter derivation (time grid, dose schedule),
the superposed concentration evaluation `oral_one_comp_conc`, and the
metrics extraction `pk_metrics` (Cmax, Tmax, AUC).

Numeric arrays are modelled as `List α` over a linear ordered field,
exact arithmetic standing in for IEEE floats; the exponential function is
an abstract parameter `expf : α → α` (instantiated with `Real.exp` where
a statement needs its analytic properties).  The in-place accumulation
loop of `oral_one_comp_conc` is modelled by explicit state passing over
`SimState`, so that the frame of the loop — which of the three arrays it
writes — stays visible.
-/

set_option autoImplicit false

/-- The three arrays in scope during a simulation call: the time grid `t`,
the dose times `dose_times`, and the accumulator array `C`. -/
structure SimState (α : Type*) where
  t : List α
  dose_times : List α
  C : List α

/-- The coefficient `F * D * ka / (V * max(1e-12, ka - ke))` computed once
per simulation on line 11 of `app.py`.  Note the source clamps the signed
difference `ka - ke` at `1e-12`, not its absolute value. -/
def coefSrc {α : Type*} [LinearOrderedField α] (D F ka ke V : α) : α :=
  F * D * ka / (V * max (1 / 10 ^ 12) (ka - ke))

/-- One iteration of the dose loop (lines 12-15 of `app.py`): with
`dt = t - ti` and `mask = dt >= 0`, add
`coef * (exp(-ke*dt) - exp(-ka*dt))` to the masked entries of `C`.
Only the `C` field is written. -/
def simStep {α : Type*} [LinearOrderedField α] (expf : α → α) (coef ka ke : α)
    (s : SimState α) (ti : α) : SimState α :=
  ⟨s.t, s.dose_times,
    List.zipWith
      (fun tp c =>
        if 0 ≤ tp - ti then
          c + coef * (expf (-ke * (tp - ti)) - expf (-ka * (tp - ti)))
        else c)
      s.t s.C⟩

/-- The body of `oral_one_comp_conc` (lines 8-16 of `app.py`):
`C = np.zeros_like(t)` followed by the fold of the dose loop over
`dose_times`. -/
def runSim {α : Type*} [LinearOrderedField α] (expf : α → α) (D F ka ke V : α)
    (s : SimState α) : SimState α :=
  s.dose_times.foldl (simStep expf (coefSrc D F ka ke V) ka ke)
    ⟨s.t, s.dose_times, List.replicate s.t.length 0⟩

/-- `oral_one_comp_conc(t, dose_times, D, F, ka, ke, V)`: the returned
concentration array. -/
def oral_one_comp_conc {α : Type*} [LinearOrderedField α] (expf : α → α)
    (t dose_times : List α) (D F ka ke V : α) : List α :=
  (runSim expf D F ka ke V ⟨t, dose_times, []⟩).C

/-- `int(np.argmax(C))` (line 19 of `app.py`): index of the first maximal
entry, computed by a left fold that replaces the candidate only on a
strictly larger value. -/
def argmaxAux {α : Type*} [LinearOrderedField α] (C : List α) (n : ℕ) : ℕ :=
  (List.range n).foldl (fun b i => if C.getD b 0 < C.getD i 0 then i else b) 0

/-- `int(np.argmax(C))` over the whole array. -/
def argmaxIdx {α : Type*} [LinearOrderedField α] (C : List α) : ℕ :=
  argmaxAux C C.length

/-- `np.trapz(C, t)` (line 21 of `app.py`), with the grid `t` as first
argument: the sum over adjacent pairs of `(C i + C (i+1)) / 2 * (t (i+1) - t i)`. -/
def trapz {α : Type*} [LinearOrderedField α] : List α → List α → α
  | t0 :: t1 :: ts, c0 :: c1 :: cs => (c0 + c1) / 2 * (t1 - t0) + trapz (t1 :: ts) (c1 :: cs)
  | _, _ => 0

/-- `pk_metrics(t, C)` (lines 18-22 of `app.py`), returning
`(Cmax, Tmax, AUC)`.  `np.argmax` raises `ValueError` on an empty array
and `t[idx]` raises `IndexError` when `idx` is out of range for `t`;
both failure points are modelled as `none`. -/
def pk_metrics {α : Type*} [LinearOrderedField α] (t C : List α) : Option (α × α × α) :=
  if C.isEmpty then none
  else if argmaxIdx C < t.length then
    some (C.getD (argmaxIdx C) 0, t.getD (argmaxIdx C) 0, trapz t C)
  else none

/-- `t = np.arange(0.0, t_end + dt, dt)` (line 48 of `app.py`): in exact
arithmetic, the points `k * dt` for `0 ≤ k < ⌈(t_end + dt) / dt⌉`
(`np.arange` with positive step emits `start + k*step` while below the
stop value, hence `ceil((stop - start) / step)` points). -/
def buildTimeGrid {α : Type*} [LinearOrderedField α] [FloorRing α] (t_end dt : α) : List α :=
  (List.range (Int.ceil ((t_end + dt) / dt)).toNat).map (fun (k : ℕ) => (k : α) * dt)

/-- `dose_times = np.array([i * tau_h for i in range(int(n_doses))]) + tlag_h`
(line 49 of `app.py`). -/
def buildDoseSchedule {α : Type*} [LinearOrderedField α] (tau : α) (n : ℕ) (t_lag : α) : List α :=
  (List.range n).map (fun (i : ℕ) => (i : α) * tau + t_lag)

/-- The kernel coefficient exactly as claim C2 words it: divide by `V`
times the absolute difference `|ka - ke|` clamped below by `1e-12`.  The
source (`coefSrc`) instead clamps the signed difference `ka - ke`. -/
def coefClaimed {α : Type*} [LinearOrderedField α] (D F ka ke V : α) : α :=
  F * D * ka / (V * max (1 / 10 ^ 12) |ka - ke|)

/-- State-passing wrapper for `pk_metrics`, making explicit that the
source of `pk_metrics` contains no write to any array: it only reads
`t` and `C` and computes scalars. -/
def pk_metrics_state {α : Type*} [LinearOrderedField α] (s : SimState α) :
    SimState α × Option (α × α × α) :=
  (s, pk_metrics s.t s.C)

/-! ### Basic list access lemmas -/

lemma getD_of_lt {α : Type*} [Zero α] :
    ∀ (l : List α) (i : ℕ) (h : i < l.length), l.getD i 0 = l.get ⟨i, h⟩
  | _ :: _, 0, _ => rfl
  | _ :: l, i + 1, h => getD_of_lt l i (Nat.lt_of_succ_lt_succ h)

lemma getD_zipWith {α : Type*} [Zero α] (f : α → α → α) :
    ∀ (u v : List α) (i : ℕ), i < u.length → i < v.length →
      (List.zipWith f u v).getD i 0 = f (u.getD i 0) (v.getD i 0)
  | [], _, i, h, _ => absurd h (by simp)
  | _ :: _, [], i, _, h => absurd h (by simp)
  | _ :: _, _ :: _, 0, _, _ => rfl
  | _ :: u, _ :: v, i + 1, h1, h2 =>
      getD_zipWith f u v i (Nat.lt_of_succ_lt_succ h1) (Nat.lt_of_succ_lt_succ h2)

lemma getD_replicate_zero {α : Type*} [Zero α] :
    ∀ (n i : ℕ), (List.replicate n (0 : α)).getD i 0 = 0
  | 0, 0 => rfl
  | 0, _ + 1 => rfl
  | _ + 1, 0 => rfl
  | n + 1, i + 1 => getD_replicate_zero n i

lemma getD_range_map {α : Type*} [Zero α] (f : ℕ → α) (n i : ℕ) (h : i < n) :
    ((List.range n).map f).getD i 0 = f i := by
  have hlen : i < ((List.range n).map f).length := by
    simpa using h
  rw [getD_of_lt _ _ hlen]
  simp

/-! ### The dose loop: frame and pointwise characterisation -/

lemma foldl_simStep_frame {α : Type*} [LinearOrderedField α]
    (expf : α → α) (coef ka ke : α) :
    ∀ (ds : List α) (s0 : SimState α),
      (ds.foldl (simStep expf coef ka ke) s0).t = s0.t ∧
      (ds.foldl (simStep expf coef ka ke) s0).dose_times = s0.dose_times
  | [], _ => ⟨rfl, rfl⟩
  | d :: ds, s0 => foldl_simStep_frame expf coef ka ke ds (simStep expf coef ka ke s0 d)

lemma foldl_simStep_spec {α : Type*} [LinearOrderedField α]
    (expf : α → α) (coef ka ke : α) (tl d0 : List α) :
    ∀ (ds : List α) (C0 : List α), C0.length = tl.length →
      (ds.foldl (simStep expf coef ka ke) ⟨tl, d0, C0⟩).C.length = tl.length ∧
      ∀ i, i < tl.length →
        (ds.foldl (simStep expf coef ka ke) ⟨tl, d0, C0⟩).C.getD i 0 =
          C0.getD i 0 +
            ((ds.filter (fun ti => ti ≤ tl.getD i 0)).map
              (fun ti =>
                coef * (expf (-ke * (tl.getD i 0 - ti)) - expf (-ka * (tl.getD i 0 - ti))))).sum
  | [], C0, h => by
      refine ⟨h, fun i hi => ?_⟩
      simp
  | d :: ds, C0, h => by
      have hstep : simStep expf coef ka ke ⟨tl, d0, C0⟩ d =
          ⟨tl, d0, List.zipWith
            (fun tp c =>
              if 0 ≤ tp - d then
                c + coef * (expf (-ke * (tp - d)) - expf (-ka * (tp - d)))
              else c) tl C0⟩ := rfl
      have hlen1 : (List.zipWith
          (fun tp c =>
            if 0 ≤ tp - d then
              c + coef * (expf (-ke * (tp - d)) - expf (-ka * (tp - d)))
            else c) tl C0).length = tl.length := by
        rw [List.length_zipWith, h, min_self]
      have ih := foldl_simStep_spec expf coef ka ke tl d0 ds _ hlen1
      refine ⟨by simpa [List.foldl_cons, hstep] using ih.1, fun i hi => ?_⟩
      have hzip : (List.zipWith
          (fun tp c =>
            if 0 ≤ tp - d then
              c + coef * (expf (-ke * (tp - d)) - expf (-ka * (tp - d)))
            else c) tl C0).getD i 0 =
          (if 0 ≤ tl.getD i 0 - d then
            C0.getD i 0 + coef * (expf (-ke * (tl.getD i 0 - d)) - expf (-ka * (tl.getD i 0 - d)))
          else C0.getD i 0) := by
        rw [getD_zipWith _ tl C0 i hi (h ▸ hi)]
      have hmain := ih.2 i hi
      rw [List.foldl_cons, hstep] at *
      rw [hmain, hzip]
      by_cases hc : d ≤ tl.getD i 0
      · rw [if_pos (by linarith [hc] : 0 ≤ tl.getD i 0 - d)]
        rw [List.filter_cons_of_pos (by simpa using hc), List.map_cons, List.sum_cons]
        ring
      · rw [if_neg (by simpa [sub_nonneg] using hc)]
        rw [List.filter_cons_of_neg (by simpa using hc)]

lemma conc_length {α : Type*} [LinearOrderedField α] (expf : α → α)
    (t dose_times : List α) (D F ka ke V : α) :
    (oral_one_comp_conc expf t dose_times D F ka ke V).length = t.length :=
  (foldl_simStep_spec expf (coefSrc D F ka ke V) ka ke t dose_times dose_times
    (List.replicate t.length 0) (List.length_replicate _ _)).1

lemma conc_getD {α : Type*} [LinearOrderedField α] (expf : α → α)
    (t dose_times : List α) (D F ka ke V : α) (i : ℕ) (hi : i < t.length) :
    (oral_one_comp_conc expf t dose_times D F ka ke V).getD i 0 =
      ((dose_times.filter (fun ti => ti ≤ t.getD i 0)).map
        (fun ti =>
          coefSrc D F ka ke V *
            (expf (-ke * (t.getD i 0 - ti)) - expf (-ka * (t.getD i 0 - ti))))).sum := by
  have h := (foldl_simStep_spec expf (coefSrc D F ka ke V) ka ke t dose_times dose_times
    (List.replicate t.length 0) (List.length_replicate _ _)).2 i hi
  simpa [oral_one_comp_conc, runSim, getD_replicate_zero] using h

/-! ### The argmax fold -/

lemma argmaxAux_succ {α : Type*} [LinearOrderedField α] (C : List α) (n : ℕ) :
    argmaxAux C (n + 1) =
      if C.getD (argmaxAux C n) 0 < C.getD n 0 then n else argmaxAux C n := by
  rw [argmaxAux, argmaxAux, List.range_succ, List.foldl_append]
  rfl

lemma argmaxAux_spec {α : Type*} [LinearOrderedField α] (C : List α) :
    ∀ n : ℕ,
      argmaxAux C n < max n 1 ∧
      (∀ j, j < n → C.getD j 0 ≤ C.getD (argmaxAux C n) 0) ∧
      (∀ j, j < argmaxAux C n → C.getD j 0 < C.getD (argmaxAux C n) 0)
  | 0 => ⟨Nat.zero_lt_one, fun j hj => absurd hj (Nat.not_lt_zero j),
      fun j hj => absurd hj (Nat.not_lt_zero j)⟩
  | n + 1 => by
      obtain ⟨ih1, ih2, ih3⟩ := argmaxAux_spec C n
      rw [argmaxAux_succ]
      by_cases hc : C.getD (argmaxAux C n) 0 < C.getD n 0
      · rw [if_pos hc]
        refine ⟨lt_of_lt_of_le (Nat.lt_succ_self n) (le_max_left _ _), ?_, ?_⟩
        · intro j hj
          rcases Nat.lt_succ_iff_lt_or_eq.mp hj with hj | hj
          · exact le_of_lt (lt_of_le_of_lt (ih2 j hj) hc)
          · exact hj ▸ le_refl _
        · intro j hj
          rcases lt_or_le j (argmaxAux C n) with hj2 | hj2
          · exact lt_trans (ih3 j hj2) hc
          · have hjn : j < n := hj
            exact lt_of_le_of_lt (ih2 j hjn) hc
      · rw [if_neg hc]
        refine ⟨lt_of_lt_of_le ih1 (max_le_max (Nat.le_succ n) (le_refl 1)), ?_, ih3⟩
        intro j hj
        rcases Nat.lt_succ_iff_lt_or_eq.mp hj with hj | hj
        · exact ih2 j hj
        · subst hj
          exact le_of_not_lt hc

lemma argmaxIdx_lt_length {α : Type*} [LinearOrderedField α] (C : List α) (h : C ≠ []) :
    argmaxIdx C < C.length := by
  have h1 : 1 ≤ C.length := List.length_pos.mpr h
  have := (argmaxAux_spec C C.length).1
  rwa [max_eq_left h1] at this

lemma argmaxIdx_le {α : Type*} [LinearOrderedField α] (C : List α) :
    ∀ j, j < C.length → C.getD j 0 ≤ C.getD (argmaxIdx C) 0 :=
  (argmaxAux_spec C C.length).2.1

lemma argmaxIdx_first {α : Type*} [LinearOrderedField α] (C : List α) :
    ∀ j, j < argmaxIdx C → C.getD j 0 < C.getD (argmaxIdx C) 0 :=
  (argmaxAux_spec C C.length).2.2

/-! ### The trapezoidal sum -/

lemma trapz_eq_sum {α : Type*} [LinearOrderedField α] :
    ∀ (t C : List α), t.length = C.length →
      trapz t C = ∑ i in Finset.range (C.length - 1),
        (C.getD i 0 + C.getD (i + 1) 0) / 2 * (t.getD (i + 1) 0 - t.getD i 0)
  | [], [], _ => by simp [trapz]
  | [], _ :: _, h => absurd h (by simp)
  | _ :: _, [], h => absurd h (by simp)
  | [t0], [c0], _ => by simp [trapz]
  | [t0], _ :: _ :: _, h => absurd h (by simp)
  | _ :: _ :: _, [c0], h => absurd h (by simp)
  | t0 :: t1 :: ts, c0 :: c1 :: cs, h => by
      have h' : (t1 :: ts).length = (c1 :: cs).length := by
        simpa using h
      have ih := trapz_eq_sum (t1 :: ts) (c1 :: cs) h'
      show (c0 + c1) / 2 * (t1 - t0) + trapz (t1 :: ts) (c1 :: cs) = _
      rw [ih]
      have hlen : (c0 :: c1 :: cs).length - 1 = ((c1 :: cs).length - 1) + 1 := by
        simp
      rw [hlen, Finset.sum_range_succ']
      simp [List.getD_cons_succ, List.getD_cons_zero]
      ring

/-! ### Evaluating pk_metrics on a nonempty curve -/

lemma pk_metrics_eq_some {α : Type*} [LinearOrderedField α] (t C : List α)
    (hne : C ≠ []) (hlen : t.length = C.length) :
    pk_metrics t C =
      some (C.getD (argmaxIdx C) 0, t.getD (argmaxIdx C) 0, trapz t C) := by
  have h1 : C.isEmpty = false := by
    cases C with
    | nil => exact absurd rfl hne
    | cons a l => rfl
  have h2 : argmaxIdx C < t.length := hlen ▸ argmaxIdx_lt_length C hne
  rw [pk_metrics, h1]
  simp [h2]

/-- Claim C1: for every time grid, dose schedule, and parameters D, F, ka,
ke, V, the simulator returns a curve of exactly the grid's length, in grid
order, whose value at each grid point t is the sum over all dose times
`ti ≤ t` of the single-dose kernel
`F*D*ka / (V * max(1e-12, ka - ke)) * (exp(-ke*(t - ti)) - exp(-ka*(t - ti)))`
(the `ka - ke` denominator epsilon-guarded as in the source). -/
theorem C1_superposition {α : Type*} [LinearOrderedField α] (expf : α → α)
    (t dose_times : List α) (D F ka ke V : α) :
    (oral_one_comp_conc expf t dose_times D F ka ke V).length = t.length ∧
    ∀ i, i < t.length →
      (oral_one_comp_conc expf t dose_times D F ka ke V).getD i 0 =
        ((dose_times.filter (fun ti => ti ≤ t.getD i 0)).map
          (fun ti =>
            F * D * ka / (V * max (1 / 10 ^ 12) (ka - ke)) *
              (expf (-ke * (t.getD i 0 - ti)) - expf (-ka * (t.getD i 0 - ti))))).sum := by
  refine ⟨conc_length expf t dose_times D F ka ke V, fun i hi => ?_⟩
  rw [conc_getD expf t dose_times D F ka ke V i hi]
  rfl

/-- Witness for C1 at a concrete input: grid `[0, 1]`, one dose at `0`,
`D = F = V = 1`, `ka = 2`, `ke = 1`, with the identity in place of exp. -/
theorem C1_superposition_witness :
    (oral_one_comp_conc (id : ℚ → ℚ) [0, 1] [0] 1 1 2 1 1).length =
        ([0, 1] : List ℚ).length ∧
    (oral_one_comp_conc (id : ℚ → ℚ) [0, 1] [0] 1 1 2 1 1).getD 1 0 =
      ((([0] : List ℚ).filter (fun ti => ti ≤ ([0, 1] : List ℚ).getD 1 0)).map
        (fun ti =>
          1 * 1 * 2 / (1 * max (1 / 10 ^ 12) (2 - 1)) *
            (id (-1 * (([0, 1] : List ℚ).getD 1 0 - ti)) -
              id (-2 * (([0, 1] : List ℚ).getD 1 0 - ti))))).sum :=
  ⟨(C1_superposition (id : ℚ → ℚ) [0, 1] [0] 1 1 2 1 1).1,
    (C1_superposition (id : ℚ → ℚ) [0, 1] [0] 1 1 2 1 1).2 1 (by norm_num)⟩

/-- Claim C2 counterexample: at `D = F = V = 1`, `ka = 1`, `ke = 2` the
source coefficient (signed clamp, giving denominator `1e-12`) differs from
the claimed coefficient (absolute-value clamp, giving denominator `1`). -/
theorem C2_abs_clamp_refuted :
    coefSrc (1 : ℚ) 1 1 2 1 ≠ coefClaimed (1 : ℚ) 1 1 2 1 := by
  have h1 : max ((1 : ℚ) / 10 ^ 12) (1 - 2) = 1 / 10 ^ 12 := by
    rw [max_eq_left]
    norm_num
  have h2 : max ((1 : ℚ) / 10 ^ 12) |(1 : ℚ) - 2| = 1 := by
    rw [max_eq_right] <;> rw [abs_of_nonpos] <;> norm_num
  rw [coefSrc, coefClaimed, h1, h2]
  norm_num

/-- Claim C2 amended: the simulator's coefficient divides by `V` times the
signed difference `ka - ke` clamped below by `1e-12` (not the absolute
difference); the clamped factor is always positive, so with `V > 0` the
denominator is nonzero and `ka = ke` raises no domain error, falling back
to the `1e-12` denominator. -/
theorem C2_signed_clamp_guard {α : Type*} [LinearOrderedField α] (D F ka ke V : α) :
    0 < max (1 / 10 ^ 12 : α) (ka - ke) ∧
    (0 < V → 0 < V * max (1 / 10 ^ 12 : α) (ka - ke)) ∧
    (ka = ke → coefSrc D F ka ke V = F * D * ka / (V * (1 / 10 ^ 12))) ∧
    (1 / 10 ^ 12 ≤ ka - ke → coefSrc D F ka ke V = F * D * ka / (V * (ka - ke))) ∧
    (ka - ke ≤ 1 / 10 ^ 12 → coefSrc D F ka ke V = F * D * ka / (V * (1 / 10 ^ 12))) := by
  have hpos : (0 : α) < 1 / 10 ^ 12 := by positivity
  refine ⟨lt_of_lt_of_le hpos (le_max_left _ _),
    fun hV => mul_pos hV (lt_of_lt_of_le hpos (le_max_left _ _)), ?_, ?_, ?_⟩
  · intro h
    subst h
    rw [coefSrc, sub_self, max_eq_left hpos.le]
  · intro h
    rw [coefSrc, max_eq_right h]
  · intro h
    rw [coefSrc, max_eq_left h]

/-- Witness for the amended C2 at `D = F = V = 1`, `ka = 1`, `ke = 2`. -/
theorem C2_signed_clamp_guard_witness :
    0 < max (1 / 10 ^ 12 : ℚ) (1 - 2) ∧
    (0 < (1 : ℚ) → 0 < (1 : ℚ) * max (1 / 10 ^ 12 : ℚ) (1 - 2)) ∧
    ((1 : ℚ) = 2 → coefSrc (1 : ℚ) 1 1 2 1 = 1 * 1 * 1 / (1 * (1 / 10 ^ 12))) ∧
    ((1 : ℚ) / 10 ^ 12 ≤ 1 - 2 → coefSrc (1 : ℚ) 1 1 2 1 = 1 * 1 * 1 / (1 * (1 - 2))) ∧
    ((1 : ℚ) - 2 ≤ 1 / 10 ^ 12 → coefSrc (1 : ℚ) 1 1 2 1 = 1 * 1 * 1 / (1 * (1 / 10 ^ 12))) :=
  C2_signed_clamp_guard 1 1 1 2 1

/-- Claim C4: a dose administered at `ti` contributes exactly 0 to the
concentration at any grid point strictly before `ti`: appending such a
dose to the schedule leaves the curve value at that grid point unchanged. -/
theorem C4_causality {α : Type*} [LinearOrderedField α] (expf : α → α)
    (t ds : List α) (D F ka ke V ti : α) (i : ℕ)
    (hi : i < t.length) (h : t.getD i 0 < ti) :
    (oral_one_comp_conc expf t (ds ++ [ti]) D F ka ke V).getD i 0 =
      (oral_one_comp_conc expf t ds D F ka ke V).getD i 0 := by
  rw [conc_getD expf t (ds ++ [ti]) D F ka ke V i hi,
    conc_getD expf t ds D F ka ke V i hi, List.filter_append]
  have hng : ¬ (ti ≤ t.getD i 0) := not_le.mpr h
  have hnil : List.filter (fun x => decide (x ≤ t.getD i 0)) [ti] = [] := by
    rw [List.filter_cons, if_neg (by simpa using hng), List.filter_nil]
  rw [hnil, List.append_nil]

/-- Witness for C4: grid `[0]`, a dose at `1 > 0` appended to the empty
schedule does not change the concentration at time `0`. -/
theorem C4_causality_witness :
    (oral_one_comp_conc (id : ℚ → ℚ) [0] ([] ++ [1]) 1 1 1 1 1).getD 0 0 =
      (oral_one_comp_conc (id : ℚ → ℚ) [0] [] 1 1 1 1 1).getD 0 0 :=
  C4_causality (id : ℚ → ℚ) [0] [] 1 1 1 1 1 1 0 (by norm_num) (by norm_num)

/-- Claim C8: with an empty dose schedule the simulator returns the all
zeros curve of the grid's length, for any grid and any parameters. -/
theorem C8_empty_schedule {α : Type*} [LinearOrderedField α] (expf : α → α)
    (t : List α) (D F ka ke V : α) :
    oral_one_comp_conc expf t [] D F ka ke V = List.replicate t.length 0 := rfl

/-- Claim C9, evaluated at the failing input: `pk_metrics` on a length-0
grid and curve does not return a metrics triple (`np.argmax` raises
`ValueError` on an empty array, modelled as `none`). -/
theorem C9_empty_metrics_crash : pk_metrics ([] : List ℚ) [] = none := rfl

/-- Claim C10: the simulation loop writes only its local accumulator `C`:
after the fold, the `t` and `dose_times` arrays of the state are unchanged;
`pk_metrics` contains no array write at all, so its state-passing form
returns the state unchanged. -/
theorem C10_no_input_mutation {α : Type*} [LinearOrderedField α] (expf : α → α)
    (D F ka ke V : α) (s : SimState α) :
    (runSim expf D F ka ke V s).t = s.t ∧
    (runSim expf D F ka ke V s).dose_times = s.dose_times ∧
    (pk_metrics_state s).1 = s :=
  ⟨(foldl_simStep_frame expf (coefSrc D F ka ke V) ka ke s.dose_times _).1,
    (foldl_simStep_frame expf (coefSrc D F ka ke V) ka ke s.dose_times _).2, rfl⟩

/-- Claim C3: on a non-empty curve with an equal-length grid, `pk_metrics`
returns Cmax = the maximum value of the curve, Tmax = the grid point at the
first index attaining that maximum (a member of the grid, with
Cmax = curve[index of Tmax]), and AUC = the trapezoidal sum over adjacent
pairs of `(C i + C (i+1)) / 2 * (t (i+1) - t i)`. -/
theorem C3_metrics {α : Type*} [LinearOrderedField α] (t C : List α)
    (hne : C ≠ []) (hlen : t.length = C.length) :
    ∃ Cmax Tmax AUC,
      pk_metrics t C = some (Cmax, Tmax, AUC) ∧
      Cmax ∈ C ∧ (∀ x, x ∈ C → x ≤ Cmax) ∧
      Cmax = C.getD (argmaxIdx C) 0 ∧
      Tmax = t.getD (argmaxIdx C) 0 ∧ Tmax ∈ t ∧
      (∀ j, j < argmaxIdx C → C.getD j 0 < Cmax) ∧
      AUC = ∑ i in Finset.range (C.length - 1),
        (C.getD i 0 + C.getD (i + 1) 0) / 2 * (t.getD (i + 1) 0 - t.getD i 0) := by
  have hidx : argmaxIdx C < C.length := argmaxIdx_lt_length C hne
  have hidxt : argmaxIdx C < t.length := by
    rw [hlen]
    exact hidx
  refine ⟨C.getD (argmaxIdx C) 0, t.getD (argmaxIdx C) 0, trapz t C,
    pk_metrics_eq_some t C hne hlen, ?_, ?_, rfl, rfl, ?_, argmaxIdx_first C,
    trapz_eq_sum t C hlen⟩
  · rw [getD_of_lt C _ hidx]
    exact List.get_mem C _ hidx
  · intro x hx
    obtain ⟨n, hn⟩ := List.mem_iff_get.mp hx
    rw [← hn, ← getD_of_lt C n.1 n.2]
    exact argmaxIdx_le C n.1 n.2
  · rw [getD_of_lt t _ hidxt]
    exact List.get_mem t _ hidxt

/-- Witness for C3 on grid `[0, 1]` and curve `[1, 2]`. -/
theorem C3_metrics_witness :
    ∃ Cmax Tmax AUC,
      pk_metrics ([0, 1] : List ℚ) [1, 2] = some (Cmax, Tmax, AUC) ∧
      Cmax ∈ ([1, 2] : List ℚ) ∧ (∀ x, x ∈ ([1, 2] : List ℚ) → x ≤ Cmax) ∧
      Cmax = ([1, 2] : List ℚ).getD (argmaxIdx ([1, 2] : List ℚ)) 0 ∧
      Tmax = ([0, 1] : List ℚ).getD (argmaxIdx ([1, 2] : List ℚ)) 0 ∧
      Tmax ∈ ([0, 1] : List ℚ) ∧
      (∀ j, j < argmaxIdx ([1, 2] : List ℚ) → ([1, 2] : List ℚ).getD j 0 < Cmax) ∧
      AUC = ∑ i in Finset.range (([1, 2] : List ℚ).length - 1),
        (([1, 2] : List ℚ).getD i 0 + ([1, 2] : List ℚ).getD (i + 1) 0) / 2 *
          (([0, 1] : List ℚ).getD (i + 1) 0 - ([0, 1] : List ℚ).getD i 0) :=
  C3_metrics ([0, 1] : List ℚ) [1, 2] (by decide) rfl

/-- Claim C5, evaluated at the failing input: with all-positive parameters
`D = F = V = 1`, `ka = 1/2`, `ke = 1` (so `ka < ke`), a single dose at
time 0 and grid `[0, 1]`, the simulated concentration at time 1 is
negative — the signed clamp `max(1e-12, ka - ke)` replaces the negative
denominator `ka - ke` by `1e-12`, flipping the sign of the kernel. -/
theorem C5_negative_concentration :
    (oral_one_comp_conc Real.exp [(0 : ℝ), 1] [0] 1 1 (1 / 2) 1 1).getD 1 0 < 0 := by
  have hi : (1 : ℕ) < ([(0 : ℝ), 1]).length := by norm_num
  rw [conc_getD Real.exp [(0 : ℝ), 1] [0] 1 1 (1 / 2) 1 1 1 hi]
  have hg : ([(0 : ℝ), 1]).getD 1 0 = 1 := rfl
  rw [hg]
  have hfil : (([0] : List ℝ).filter (fun ti => decide (ti ≤ 1))) = [0] := by
    rw [List.filter_cons, if_pos (by norm_num), List.filter_nil]
  rw [hfil]
  simp only [List.map_cons, List.map_nil, List.sum_cons, List.sum_nil, add_zero]
  have hc : coefSrc (1 : ℝ) 1 (1 / 2) 1 1 = 10 ^ 12 / 2 := by
    rw [coefSrc, max_eq_left (by norm_num)]
    norm_num
  rw [hc]
  have h1 : (-1 : ℝ) * (1 - 0) = -1 := by norm_num
  have h2 : (-(1 / 2) : ℝ) * (1 - 0) = -(1 / 2) := by norm_num
  rw [h1, h2]
  have hex : Real.exp (-1) - Real.exp (-(1 / 2)) < 0 := by
    rw [sub_neg]
    exact Real.exp_lt_exp.mpr (by norm_num)
  exact mul_neg_of_pos_of_neg (by positivity) hex

/-- Claim C6: for `t_end > 0` and `dt > 0` the time grid is
`0, dt, 2*dt, …` (value `i*dt` at index `i`), strictly increasing, starting
at 0, of length `m + 1` where `m*dt` is the first multiple of `dt` that is
`≥ t_end` (so the grid ends at, and includes, that multiple). -/
theorem C6_time_grid {α : Type*} [LinearOrderedField α] [FloorRing α]
    (t_end dt : α) (ht : 0 < t_end) (hdt : 0 < dt) :
    ∃ m : ℕ,
      (buildTimeGrid t_end dt).length = m + 1 ∧
      (∀ i, i < m + 1 → (buildTimeGrid t_end dt).getD i 0 = (i : α) * dt) ∧
      (buildTimeGrid t_end dt).getD 0 0 = 0 ∧
      List.Pairwise (· < ·) (buildTimeGrid t_end dt) ∧
      t_end ≤ (m : α) * dt ∧
      (∀ k : ℕ, t_end ≤ (k : α) * dt → m ≤ k) := by
  have hq : 0 < t_end / dt := div_pos ht hdt
  have hstop : (t_end + dt) / dt = t_end / dt + 1 := by
    rw [add_div, div_self hdt.ne']
  have hceil : Int.ceil ((t_end + dt) / dt) = Int.ceil (t_end / dt) + 1 := by
    rw [hstop, Int.ceil_add_one]
  have hcpos : 0 < Int.ceil (t_end / dt) := Int.ceil_pos.mpr hq
  have h1 : ((Int.ceil (t_end / dt)).toNat : ℤ) = Int.ceil (t_end / dt) :=
    Int.toNat_of_nonneg hcpos.le
  have hn : (Int.ceil ((t_end + dt) / dt)).toNat = (Int.ceil (t_end / dt)).toNat + 1 := by
    rw [hceil]
    omega
  refine ⟨(Int.ceil (t_end / dt)).toNat, ?_, ?_, ?_, ?_, ?_, ?_⟩
  · rw [buildTimeGrid, List.length_map, List.length_range, hn]
  · intro i hilt
    rw [buildTimeGrid]
    exact getD_range_map _ _ i (by rw [hn]; exact hilt)
  · rw [buildTimeGrid, getD_range_map _ _ 0 (by rw [hn]; omega)]
    simp
  · rw [buildTimeGrid]
    exact (List.pairwise_lt_range _).map _
      (fun a b hab => mul_lt_mul_of_pos_right (by exact_mod_cast hab) hdt)
  · have h2 : t_end / dt ≤ ((Int.ceil (t_end / dt)).toNat : α) := by
      have h3 := Int.le_ceil (t_end / dt)
      rw [← h1] at h3
      exact_mod_cast h3
    exact (div_le_iff₀ hdt).mp h2
  · intro k hk
    have h3 : t_end / dt ≤ (k : α) := (div_le_iff₀ hdt).mpr hk
    have h4 : Int.ceil (t_end / dt) ≤ (k : ℤ) := Int.ceil_le.mpr (by exact_mod_cast h3)
    omega

/-- Witness for C6 at `t_end = 1`, `dt = 1` (over ℚ): the grid is `[0, 1]`. -/
theorem C6_time_grid_witness :
    ∃ m : ℕ,
      (buildTimeGrid (1 : ℚ) 1).length = m + 1 ∧
      (∀ i, i < m + 1 → (buildTimeGrid (1 : ℚ) 1).getD i 0 = (i : ℚ) * 1) ∧
      (buildTimeGrid (1 : ℚ) 1).getD 0 0 = 0 ∧
      List.Pairwise (· < ·) (buildTimeGrid (1 : ℚ) 1) ∧
      (1 : ℚ) ≤ (m : ℚ) * 1 ∧
      (∀ k : ℕ, (1 : ℚ) ≤ (k : ℚ) * 1 → m ≤ k) :=
  C6_time_grid (1 : ℚ) 1 (by norm_num) (by norm_num)

/-- Claim C7: for `tau > 0`, `n ≥ 1`, `t_lag ≥ 0`, the dose schedule has
exactly `n` times, the `i`-th equal to `i*tau + t_lag`, in strictly
increasing order. -/
theorem C7_dose_schedule {α : Type*} [LinearOrderedField α] (tau t_lag : α) (n : ℕ)
    (htau : 0 < tau) (hn : 1 ≤ n) (hlag : 0 ≤ t_lag) :
    (buildDoseSchedule tau n t_lag).length = n ∧
    (∀ i, i < n → (buildDoseSchedule tau n t_lag).getD i 0 = (i : α) * tau + t_lag) ∧
    List.Pairwise (· < ·) (buildDoseSchedule tau n t_lag) := by
  refine ⟨by simp [buildDoseSchedule], fun i hi => getD_range_map _ n i hi, ?_⟩
  rw [buildDoseSchedule]
  exact (List.pairwise_lt_range _).map _
    (fun a b hab => by
      have hcast : (a : α) < (b : α) := by exact_mod_cast hab
      have := mul_lt_mul_of_pos_right hcast htau
      linarith)

/-- Witness for C7 at `tau = 1`, `n = 2`, `t_lag = 0` (over ℚ). -/
theorem C7_dose_schedule_witness :
    (buildDoseSchedule (1 : ℚ) 2 0).length = 2 ∧
    (∀ i, i < 2 → (buildDoseSchedule (1 : ℚ) 2 0).getD i 0 = (i : ℚ) * 1 + 0) ∧
    List.Pairwise (· < ·) (buildDoseSchedule (1 : ℚ) 2 0) :=
  C7_dose_schedule (1 : ℚ) 0 2 (by norm_num) (by norm_num) (by norm_num)
